import Mathlib

/-!
Verification development for gorhill/publish-extension.

The JavaScript sources (utils.js, github-api.js, publish-firefox.js,
publish-edge.js, publish-chromium.js, upload-firefox.js) are shallowly
embedded below.  External effects (fetch, the shell, readline) are modelled
as explicit inputs: every fallible network call is an inductive value giving
the outcome the environment produced, and each script's `main` is a pure
function from such an input record to an observable outcome (process end,
counters of issued requests, an event trace, cleanup bookkeeping).
-/

namespace PubExt

/-- How the Node process ends.  `exited c` models `process.exit(c)` (or a
normal return through the top-level `then` handler); `crashed` models an
unhandled exception / promise rejection, which Node reports and then
terminates with a non-zero (1) exit code. -/
inductive PEnd where
  | exited (c : Nat)
  | crashed
deriving DecidableEq, Repr

/-- Observable exit code of the process; Node uses 1 for an unhandled
rejection or uncaught exception. -/
def exitCodeOf : PEnd → Nat
  | .exited c => c
  | .crashed => 1

/-- Events observable in a run, used to state ordering properties:
`signedOk` = the store confirmed a signed/ready status, `download` = a
signed-artifact download request was issued, `uploadOk` = the signed
artifact was successfully uploaded to the GitHub release, `deleteUnsigned`
= the DELETE request for the unsigned release asset was issued. -/
inductive Ev where
  | signedOk
  | download
  | uploadOk
  | deleteUnsigned
deriving DecidableEq, Repr

/-- Checks that every `deleteUnsigned` event in the list is strictly
preceded by both a `signedOk` and an `uploadOk` event. -/
def deleteGuarded : Bool → Bool → List Ev → Bool
  | _, _, [] => true
  | _, su, Ev.signedOk :: r => deleteGuarded true su r
  | ss, _, Ev.uploadOk :: r => deleteGuarded ss true r
  | ss, su, Ev.deleteUnsigned :: r => ss && su && deleteGuarded ss su r
  | ss, su, Ev.download :: r => deleteGuarded ss su r

/-! ## utils.js -/

/-- utils.js `sleep`/`fetch` outcome for a call whose body is not inspected:
either the underlying `fetch` promise rejected, or a response with the given
`ok` flag arrived. -/
inductive SimpleFetch where
  | thrown
  | http (ok : Bool)
deriving DecidableEq, Repr

/-- Outcome of one underlying `fetch` call inside `fetchEx`: the fetch
promise rejected, or a response with `ok` flag arrived; `bodyOk` records
whether decoding that response's body (`response.bytes()` / `.json()` /
`.text()`) would succeed — decoding a malformed or interrupted body
throws, and in the source that `await` sits outside the `catch`. -/
inductive FetchOut where
  | thrown
  | resp (ok : Bool) (bodyOk : Bool)
deriving DecidableEq, Repr

/-- The object `fetchEx` resolves to: `response = some ok` iff a response
object is present (carrying its `ok` flag), `data = true` iff the `data`
property holds a decoded value (in the source, `data` stays `undefined`
when no recognized response-type tag was supplied). -/
structure FetchExOut where
  response : Option Bool
  data : Bool
deriving DecidableEq, Repr

/-- How a `fetchEx` call ends: its promise resolves to an object, or it
rejects (the uncaught body-decode throw propagates to the caller). -/
inductive FetchExResult where
  | rejected
  | resolved (r : FetchExOut)
deriving DecidableEq, Repr

/-- utils.js `fetchEx` recognizes exactly these strings as a trailing
response-type tag. -/
def recognizedTag (t : Option String) : Bool :=
  t == some "bytes" || t == some "json" || t == some "text"

/-- utils.js `fetchEx(...args)`: the last argument is inspected as a
response-type tag; a rejected `fetch` is caught (`.catch`) and yields `{}`;
a non-ok response yields `{ response }`.  For an ok response with a
recognized tag the body is decoded by `await response.bytes()/json()/
text()` — that `await` is *not* guarded by the catch, so a failing decode
rejects `fetchEx` itself; a successful decode yields `{ response, data }`,
and an unrecognized tag leaves `data` undefined.  `args` models the
argument list (the tag position only matters through `args.getLast?`). -/
def fetchEx (args : List String) (f : FetchOut) : FetchExResult :=
  match f with
  | .thrown => .resolved ⟨none, false⟩
  | .resp ok bodyOk =>
    if ok = false then .resolved ⟨some false, false⟩
    else if recognizedTag args.getLast? then
      if bodyOk then .resolved ⟨some true, true⟩ else .rejected
    else .resolved ⟨some true, false⟩

/-- utils.js `cleanDo`: shifts every registered job out of the queue and
invokes it once inside a try/catch, so even a throwing job (entry `false`)
is attempted exactly once.  Returns the number of jobs invoked. -/
def cleanDo : List Bool → Nat
  | [] => 0
  | _ :: rest => cleanDo rest + 1

/-- Consecutive digit runs of a string, left to right, each parsed as a
number — the `version.matchAll(/\d+/g)` + `parseInt` extraction used by
utils.js `intFromVersion` (`parseInt` of a digit run is never NaN, so its
`|| 0` fallback is the identity). -/
def digitRunsAux : List Char → Option Nat → List Nat
  | [], none => []
  | [], some n => [n]
  | c :: cs, acc =>
    if c.isDigit then
      digitRunsAux cs (some (acc.getD 0 * 10 + (c.toNat - 48)))
    else
      match acc with
      | none => digitRunsAux cs none
      | some n => n :: digitRunsAux cs none

/-- Digit runs of a version string. -/
def digitRuns (s : String) : List Nat :=
  digitRunsAux s.data none

/-- The `for (let i = 0; i < 4; i++) versionInt = versionInt * 1000 + n`
loop of utils.js `intFromVersion`, unrolled: only the first four extracted
components are consumed, missing ones count as 0. -/
def intFromVersionList (m : List Nat) : Nat :=
  ((m.getD 0 0 * 1000 + m.getD 1 0) * 1000 + m.getD 2 0) * 1000 + m.getD 3 0

/-- utils.js `intFromVersion`. -/
def intFromVersion (version : String) : Nat :=
  intFromVersionList (digitRuns version)

/-- Dotted-numeric version ordering (strict), from the spec's words:
componentwise left-to-right numeric comparison, a missing component
counting as zero. -/
def vLt : List Nat → List Nat → Bool
  | [], b => b.any (fun x => decide (0 < x))
  | a :: as, [] => decide (a = 0) && vLt as []
  | a :: as, b :: bs => decide (a < b) || (decide (a = b) && vLt as bs)

/-- Strict dotted-numeric ordering on version strings (components are the
digit runs, as in `intFromVersion`). -/
def versionStrLt (a b : String) : Bool :=
  vLt (digitRuns a) (digitRuns b)

/-! ## The bounded poll loop

Both async store submitters (publish-firefox.js `requestSignature`,
publish-edge.js `publishToEdgeStore`) run the same skeleton:

    for (;;) {
        await utils.sleep(interval);
        countdown -= 1
        if ( countdown <= 0 ) { timeout; process.exit(1); }
        <issue one status check and interpret it>
    }

`pollLoop` is that skeleton, parameterized by the per-store interpretation
`step` of one status check.  `resps i` is the environment's answer to the
i-th status check issued. -/

/-- Result of interpreting one status check: keep polling, or stop the loop
with a terminal result. -/
inductive Step (ρ : Type) where
  | again
  | halt (r : ρ)
deriving DecidableEq, Repr

/-- Observables of one poll-loop run: its terminal result, the number of
`sleep` calls awaited, and the number of status checks issued. -/
structure LoopOut (ρ : Type) where
  res : ρ
  sleeps : Nat
  checks : Nat
deriving DecidableEq, Repr

/-- The shared poll loop: sleep, decrement the countdown, time out once it
reaches zero, otherwise issue the next status check and interpret it. -/
def pollLoop (step : α → Step ρ) (tmo : ρ) (resps : Nat → α) : Nat → Nat → LoopOut ρ
  | _, 0 => ⟨tmo, 1, 0⟩
  | _, 1 => ⟨tmo, 1, 0⟩
  | idx, c + 2 =>
    match step (resps idx) with
    | .halt r => ⟨r, 1, 1⟩
    | .again =>
      let t := pollLoop step tmo resps (idx + 1) (c + 1)
      ⟨t.res, t.sleeps + 1, t.checks + 1⟩

/-! ## publish-firefox.js: AMO signing check -/

/-- One element of the AMO signing-check `files` array. -/
structure AmoFile where
  signed : Bool
  download_url : Option String
deriving DecidableEq, Repr

/-- JSON body of an AMO signing-check response; `files = none` models a
value for which `Array.isArray` is false. -/
structure AmoBody where
  processed : Bool
  valid : Bool
  files : Option (List AmoFile)
deriving DecidableEq, Repr

/-- Outcome of one AMO signing-check `fetchEx` call: the fetch rejected
(`fetchEx` then yields `{}`), or a response with `ok` flag, HTTP status,
and (when ok) decoded JSON body arrived. -/
inductive AmoFetch where
  | thrown
  | http (ok : Bool) (status : Nat) (body : AmoBody)
deriving DecidableEq, Repr

/-- JS truthiness of an optional string (`Boolean(x)`): false for absent
and for the empty string. -/
def truthy : Option String → Bool
  | none => false
  | some s => !(s == "")

/-- Terminal results of the AMO signing poll loop.  `crashed` models the
`TypeError` raised by `signingCheckResponse.ok` when `fetchEx` returned
`{}` after a rejected fetch. -/
inductive AmoLoopRes where
  | timedOut
  | checkHttpError (status : Nat)
  | validationFailed
  | signFailed
  | crashed
  | signedOk (url : String)
deriving DecidableEq, Repr

/-- Interpretation of one AMO signing check, in source order:
non-ok response → fatal server error; `processed !== true` → keep polling;
`valid !== true` → fatal validation failure; `files` not a non-empty array
or first file unsigned → keep polling; falsy `download_url` → fatal;
otherwise the signed artifact is ready at `download_url`. -/
def amoCheckStep : AmoFetch → Step AmoLoopRes
  | .thrown => .halt .crashed
  | .http ok status body =>
    if ok = false then .halt (.checkHttpError status)
    else if body.processed = false then .again
    else if body.valid = false then .halt .validationFailed
    else
      match body.files with
      | none => .again
      | some [] => .again
      | some (f :: _) =>
        if f.signed = false then .again
        else if truthy f.download_url then .halt (.signedOk (f.download_url.getD ""))
        else .halt .signFailed

/-- The spec's "pending" vocabulary for AMO: an ok status-check response
whose signing request is not yet processed, or is processed and valid but
whose signed file has not yet materialized. -/
def amoPendingB : AmoFetch → Bool
  | .thrown => false
  | .http ok _ body =>
    ok && (!body.processed ||
      (body.valid &&
        match body.files with
        | none => true
        | some [] => true
        | some (f :: _) => !f.signed))

/-- publish-firefox.js signing poll loop: `interval = 180` is declared but
each tick awaits `sleep(60)`; `countdown = 30 * 60 / 180 = 10`. -/
def amoLoop (resps : Nat → AmoFetch) : Nat → Nat → LoopOut AmoLoopRes :=
  pollLoop amoCheckStep .timedOut resps

/-- External inputs of publish-firefox.js `requestSignature`: the initial
PUT submission outcome, the per-check signing-status outcomes, and the
signed-package download outcome. -/
structure AmoSubIn where
  submit : SimpleFetch
  checks : Nat → AmoFetch
  dl : SimpleFetch

/-- Observables of one `requestSignature` run: `pend = none` means the
function returned normally, `some e` that the process ended inside it. -/
structure RSOut where
  pend : Option PEnd
  checks : Nat
  sleeps : Nat
  downloads : Nat
  trace : List Ev
deriving DecidableEq, Repr

/-- publish-firefox.js `requestSignature`: submit the package (a rejected
fetch crashes on `signingRequestResponse.ok`, a non-ok response exits 1);
for a listed channel return right away; for the unlisted channel poll the
signing status (countdown 10), and on a signed result download the artifact
(one download request; rejected fetch crashes on `downloadResponse.ok`,
non-ok response exits 1). -/
def requestSignature (channel : String) (inp : AmoSubIn) : RSOut :=
  match inp.submit with
  | .thrown => ⟨some .crashed, 0, 0, 0, []⟩
  | .http ok =>
    if ok = false then ⟨some (.exited 1), 0, 0, 0, []⟩
    else if channel ≠ "unlisted" then ⟨none, 0, 0, 0, []⟩
    else
      let t := amoLoop inp.checks 0 10
      match t.res with
      | .timedOut => ⟨some (.exited 1), t.checks, t.sleeps, 0, []⟩
      | .checkHttpError _ => ⟨some (.exited 1), t.checks, t.sleeps, 0, []⟩
      | .validationFailed => ⟨some (.exited 1), t.checks, t.sleeps, 0, []⟩
      | .signFailed => ⟨some (.exited 1), t.checks, t.sleeps, 0, []⟩
      | .crashed => ⟨some .crashed, t.checks, t.sleeps, 0, []⟩
      | .signedOk _ =>
        match inp.dl with
        | .thrown => ⟨some .crashed, t.checks, t.sleeps, 1, [.signedOk]⟩
        | .http dok =>
          if dok then ⟨none, t.checks, t.sleeps, 1, [.signedOk, .download]⟩
          else ⟨some (.exited 1), t.checks, t.sleeps, 1, [.signedOk]⟩

/-! ## github-api.js: updateFirefoxAutoUpdateFile -/

/-- How github-api.js `updateFirefoxAutoUpdateFile` ends: it either throws
(propagating to its caller) or returns, `ret true` meaning the full
update+commit succeeded and any other return being `undefined` in JS. -/
inductive UpdRes where
  | threw
  | ret (ok : Bool)
deriving DecidableEq, Repr

/-- External inputs of `updateFirefoxAutoUpdateFile`.  `ghVarsOk = false`
models `validateGithubVars` throwing on an empty credential/argument;
`staged` is the `git diff --staged` output ("" falsy); `fileText = none`
models a failed (caught) `readFile`; `recorded = none` models
`JSON.parse(text)` or the `data.addons[id].updates[0]` access throwing,
otherwise it holds the recorded `update.version`; `gitStatus` is the
`git status -s` output after `git add -u`. -/
structure UpdIn where
  ghVarsOk : Bool
  owner : String
  repo : String
  tag : String
  amoId : Option String
  mfVersion : Option String
  pkgName : Option String
  staged : String
  fileText : Option String
  recorded : Option String
  gitStatus : String

/-- Observables of one `updateFirefoxAutoUpdateFile` run: how it ended,
the `(version, update_link)` pair written by the single `fs.writeFile`
(none if the descriptor file was never written), and whether the
`git commit`/`git push` step ran. -/
structure UpdOut where
  res : UpdRes
  wrote : Option (String × String)
  committed : Bool
deriving DecidableEq, Repr

/-- The `update_link` URL written into the auto-update descriptor. -/
def updateLink (owner repo tag pkg : String) : String :=
  "https://github.com/" ++ owner ++ "/" ++ repo ++ "/releases/download/" ++
    tag ++ "/" ++ pkg

/-- github-api.js `updateFirefoxAutoUpdateFile`, in source order: validate
GitHub vars (throws); bail out (returning `undefined`, file untouched) on a
missing `amoExtensionId`/`manifest`/`signedPackageName`, a non-empty staged
diff, or an unreadable descriptor; parse the descriptor (throws on bad
shape); bail out if the new version's projection is `<` the recorded one;
otherwise write `version` and `update_link` together in one `writeFile`,
`git add`, and commit+push only if `git status -s` reports a change. -/
def updateFirefoxAutoUpdateFile (inp : UpdIn) : UpdOut :=
  if inp.ghVarsOk = false then ⟨.threw, none, false⟩
  else
    match inp.amoId with
    | none => ⟨.ret false, none, false⟩
    | some _ =>
      match inp.mfVersion with
      | none => ⟨.ret false, none, false⟩
      | some v =>
        match inp.pkgName with
        | none => ⟨.ret false, none, false⟩
        | some pkg =>
          if inp.staged ≠ "" then ⟨.ret false, none, false⟩
          else
            match inp.fileText with
            | none => ⟨.ret false, none, false⟩
            | some _ =>
              match inp.recorded with
              | none => ⟨.threw, none, false⟩
              | some recv =>
                if intFromVersion v < intFromVersion recv then
                  ⟨.ret false, none, false⟩
                else
                  let w := some (v, updateLink inp.owner inp.repo inp.tag pkg)
                  if inp.gitStatus = "" then ⟨.ret false, w, false⟩
                  else ⟨.ret true, w, true⟩

/-! ## publish-firefox.js: main -/

/-- The parts of the package manifest publish-firefox.js `main` reads:
its `version`, and whether `manifest.browser_specific_settings.gecko`
exists (`gecko = false` makes the unlisted-channel `update_url` assignment
throw). -/
structure MfFF where
  version : String
  gecko : Bool

/-- External inputs of publish-firefox.js `main`.  `asset` = an asset
matching the name was found in the release; `ghFetch` = the asset bytes
downloaded (on success `downloadAssetFromRelease` calls `getTempDir`,
registering one cleanup job; on failure it returns `undefined` and the
subsequent `unzip` of an undefined path throws); `updOk` =
`updateManifestInPackage` returned `true`. -/
structure FFIn where
  channel : String
  asset : Bool
  promptYes : Bool
  ghFetch : Bool
  manifest : Option MfFF
  updOk : Bool
  sub : AmoSubIn
  upload : Bool
  updatepath : String
  upd : UpdIn

/-- Observables of a publish-firefox.js run (main composed with its
top-level `then` handler): process end, poll-loop counters, artifact
download count, the event trace, and how many cleanup jobs were registered
(`reg`) versus actually executed by `cleanDo` (`ran`). -/
structure FFOut where
  pend : PEnd
  checks : Nat
  sleeps : Nat
  downloads : Nat
  trace : List Ev
  reg : Nat
  ran : Nat
deriving DecidableEq, Repr

/-- publish-firefox.js `main` plus its `main().then(...)` continuation.
`cleanDo` runs only in the `then` handler, i.e. only when `main` returns
(normally or with a message); every `process.exit` inside `main` and every
crash bypasses it, so `ran = 0` on those paths.  Cleanup jobs registered:
one by `downloadAssetFromRelease`'s `getTempDir`, one by `main`'s own
`getTempDir`. -/
def ffMain (inp : FFIn) : FFOut :=
  if ¬(inp.channel = "listed" ∨ inp.channel = "unlisted") then
    ⟨.exited 1, 0, 0, 0, [], 0, 0⟩
  else if inp.asset = false then ⟨.exited 1, 0, 0, 0, [], 0, 0⟩
  else if inp.promptYes = false then ⟨.exited 1, 0, 0, 0, [], 0, 0⟩
  else if inp.ghFetch = false then ⟨.crashed, 0, 0, 0, [], 0, 0⟩
  else
    match inp.manifest with
    | none => ⟨.exited 1, 0, 0, 0, [], 1, 0⟩
    | some mf =>
      if inp.channel = "unlisted" ∧ mf.gecko = false then
        ⟨.crashed, 0, 0, 0, [], 1, 0⟩
      else if inp.channel = "unlisted" ∧ inp.updOk = false then
        ⟨.exited 1, 0, 0, 0, [], 1, 0⟩
      else
        let rs := requestSignature inp.channel inp.sub
        match rs.pend with
        | some e => ⟨e, rs.checks, rs.sleeps, rs.downloads, rs.trace, 2, 0⟩
        | none =>
          if inp.channel = "unlisted" then
            if inp.upload = false then
              ⟨.exited 1, rs.checks, rs.sleeps, rs.downloads, rs.trace, 2, 0⟩
            else
              let tr := rs.trace ++ [Ev.uploadOk, Ev.deleteUnsigned]
              if inp.updatepath ≠ "" then
                match (updateFirefoxAutoUpdateFile inp.upd).res with
                | .threw => ⟨.crashed, rs.checks, rs.sleeps, rs.downloads, tr, 2, 0⟩
                | .ret _ => ⟨.exited 0, rs.checks, rs.sleeps, rs.downloads, tr, 2, 2⟩
              else ⟨.exited 0, rs.checks, rs.sleeps, rs.downloads, tr, 2, 2⟩
          else ⟨.exited 0, rs.checks, rs.sleeps, rs.downloads, rs.trace, 2, 2⟩

/-! ## upload-firefox.js -/

/-- The `file` object of an AMO v5 version-lookup response body. -/
structure V5File where
  status : String
deriving DecidableEq, Repr

/-- Outcome of the single AMO v5 version-lookup call in upload-firefox.js
`checkSignature`: rejected fetch, or a response with `ok` flag and (when
decoded) the optional `file` object; `file = none` makes the unguarded
`file.status` access throw. -/
inductive AmoV5Fetch where
  | thrown
  | http (ok : Bool) (file : Option V5File)
deriving DecidableEq, Repr

/-- External inputs of upload-firefox.js `checkSignature`: the one status
lookup and the signed-package download. -/
structure UFCheckIn where
  check : AmoV5Fetch
  dl : SimpleFetch

/-- Observables of one `checkSignature` run. -/
structure CSOut where
  pend : Option PEnd
  downloads : Nat
  trace : List Ev
deriving DecidableEq, Repr

/-- upload-firefox.js `checkSignature`: one status lookup (no poll loop) —
rejected fetch crashes on `signingCheckResponse.ok`; non-ok exits 1;
missing `file` crashes on `file.status`; status `disabled` (signing failed)
or `unreviewed` (still pending) exits 1; any other status is treated as
signed and the artifact is downloaded (crash/exit-1/success as for AMO
downloads in publish-firefox.js). -/
def checkSignature (inp : UFCheckIn) : CSOut :=
  match inp.check with
  | .thrown => ⟨some .crashed, 0, []⟩
  | .http ok file =>
    if ok = false then ⟨some (.exited 1), 0, []⟩
    else
      match file with
      | none => ⟨some .crashed, 0, []⟩
      | some f =>
        if f.status = "disabled" then ⟨some (.exited 1), 0, []⟩
        else if f.status = "unreviewed" then ⟨some (.exited 1), 0, []⟩
        else
          match inp.dl with
          | .thrown => ⟨some .crashed, 1, [.signedOk]⟩
          | .http dok =>
            if dok then ⟨none, 1, [.signedOk, .download]⟩
            else ⟨some (.exited 1), 1, [.signedOk]⟩

/-- External inputs of upload-firefox.js `main`. -/
structure UFIn where
  channel : String
  asset : Bool
  promptYes : Bool
  ghFetch : Bool
  manifestOk : Bool
  cs : UFCheckIn
  upload : Bool
  updatepath : String
  upd : UpdIn

/-- Observables of an upload-firefox.js run.  upload-firefox.js's top-level
`then` handler never calls `cleanDo`, so `ran = 0` on every path; its
`main` creates its scratch directory with a bare `fs.mkdtemp` (no cleanup
registration), so only `downloadAssetFromRelease`'s `getTempDir` registers
a job. -/
structure UFOut where
  pend : PEnd
  downloads : Nat
  trace : List Ev
  reg : Nat
  ran : Nat
deriving DecidableEq, Repr

/-- upload-firefox.js `main` plus its top-level continuation: locate the
asset, confirm, download it, read its manifest, check the signing status,
upload the signed package to the release, and only then delete the
unsigned asset; optionally patch the auto-update descriptor. -/
def ufMain (inp : UFIn) : UFOut :=
  if ¬(inp.channel = "listed" ∨ inp.channel = "unlisted") then
    ⟨.exited 1, 0, [], 0, 0⟩
  else if inp.asset = false then ⟨.exited 1, 0, [], 0, 0⟩
  else if inp.promptYes = false then ⟨.exited 1, 0, [], 0, 0⟩
  else if inp.ghFetch = false then ⟨.crashed, 0, [], 0, 0⟩
  else if inp.manifestOk = false then ⟨.exited 1, 0, [], 1, 0⟩
  else
    let c := checkSignature inp.cs
    match c.pend with
    | some e => ⟨e, c.downloads, c.trace, 1, 0⟩
    | none =>
      if inp.upload = false then ⟨.exited 1, c.downloads, c.trace, 1, 0⟩
      else
        let tr := c.trace ++ [Ev.uploadOk, Ev.deleteUnsigned]
        if inp.channel = "unlisted" ∧ inp.updatepath ≠ "" then
          match (updateFirefoxAutoUpdateFile inp.upd).res with
          | .threw => ⟨.crashed, c.downloads, tr, 1, 0⟩
          | .ret _ => ⟨.exited 0, c.downloads, tr, 1, 0⟩
        else ⟨.exited 0, c.downloads, tr, 1, 0⟩

/-! ## publish-edge.js -/

/-- Outcome of one Edge operation-status `fetchEx` call: rejected fetch, or
a response with HTTP status and (when decoded) the body's optional `status`
string. -/
inductive EdgeFetch where
  | thrown
  | http (status : Nat) (body : Option String)
deriving DecidableEq, Repr

/-- Terminal results of the Edge operation poll loop. -/
inductive EdgeLoopRes where
  | timedOut
  | checkHttpError (status : Nat)
  | statusFailed
  | crashed
  | ready
deriving DecidableEq, Repr

/-- Interpretation of one Edge status check, in source order: HTTP status
other than 200 → fatal server error; body status `undefined` or `Failed` →
fatal; `InProgress` → keep polling; anything else → the package is ready to
be published. -/
def edgeCheckStep : EdgeFetch → Step EdgeLoopRes
  | .thrown => .halt .crashed
  | .http status body =>
    if status ≠ 200 then .halt (.checkHttpError status)
    else
      match body with
      | none => .halt .statusFailed
      | some st =>
        if st = "Failed" then .halt .statusFailed
        else if st = "InProgress" then .again
        else .halt .ready

/-- The spec's "pending" vocabulary for Edge: a 200 response whose body
status is `InProgress`. -/
def edgePendingB : EdgeFetch → Bool
  | .thrown => false
  | .http status body => (status == 200) && (body == some "InProgress")

/-- publish-edge.js operation poll loop: `interval = 60`, `countdown =
15 * 60 / 60 = 15`. -/
def edgeLoop (resps : Nat → EdgeFetch) : Nat → Nat → LoopOut EdgeLoopRes :=
  pollLoop edgeCheckStep .timedOut resps

/-- Outcome of the Edge upload/publish POSTs: rejected fetch, or a response
with HTTP status and optional `Location` header value.  (For a missing
header `headers.get` returns `null`, never `undefined`, so the source's
`=== undefined` guards on `Location` can never fire.) -/
inductive EdgeHdrFetch where
  | thrown
  | http (status : Nat) (loc : Option String)
deriving DecidableEq, Repr

/-- External inputs of publish-edge.js `publishToEdgeStore`: the draft
package upload, the per-check operation statuses, and the publish POST. -/
structure EdgeSubIn where
  upload : EdgeHdrFetch
  checks : Nat → EdgeFetch
  pub : EdgeHdrFetch

/-- Observables of one `publishToEdgeStore` run.  The Edge flow never
downloads an artifact after its poll loop, so `downloads` is identically
0 by construction. -/
structure ESOut where
  pend : Option PEnd
  checks : Nat
  sleeps : Nat
  downloads : Nat
deriving DecidableEq, Repr

/-- publish-edge.js `publishToEdgeStore`: upload the draft package (rejected
fetch crashes on `uploadResponse.status`; status other than 202 exits 1),
poll the operation (countdown 15), then POST the publish request (202
required).  No artifact is downloaded on the ready path. -/
def publishToEdgeStore (inp : EdgeSubIn) : ESOut :=
  match inp.upload with
  | .thrown => ⟨some .crashed, 0, 0, 0⟩
  | .http status _ =>
    if status ≠ 202 then ⟨some (.exited 1), 0, 0, 0⟩
    else
      let t := edgeLoop inp.checks 0 15
      match t.res with
      | .timedOut => ⟨some (.exited 1), t.checks, t.sleeps, 0⟩
      | .checkHttpError _ => ⟨some (.exited 1), t.checks, t.sleeps, 0⟩
      | .statusFailed => ⟨some (.exited 1), t.checks, t.sleeps, 0⟩
      | .crashed => ⟨some .crashed, t.checks, t.sleeps, 0⟩
      | .ready =>
        match inp.pub with
        | .thrown => ⟨some .crashed, t.checks, t.sleeps, 0⟩
        | .http ps _ =>
          if ps ≠ 202 then ⟨some (.exited 1), t.checks, t.sleeps, 0⟩
          else ⟨none, t.checks, t.sleeps, 0⟩

/-- The Chromium/Edge manifest-vs-store-listing name check:
`manifestName && manifestName !== storeName` (truthiness: present and
non-empty). -/
def nameMismatch (mn : Option String) (storeName : String) : Bool :=
  match mn with
  | none => false
  | some n => (!(n == "")) && (!(n == storeName))

/-- External inputs of publish-edge.js `main`.  `storeName` is the result
of `extensionNameFromEdgeStore` (the listing's title, or "?" on any fetch
or parse failure); `manifestName` of `getExtensionNameFromPackage`;
`manifestOk` = the package manifest parsed; `patchOk` = the
version/version_name patching of the package (archive rewrite) did not
throw.  `store` is carried for completeness but never consulted: `main`
exits before `publishToEdgeStore`. -/
structure EdgeIn where
  asset : Bool
  ghFetch : Bool
  storeName : String
  manifestName : Option String
  manifestOk : Bool
  patchOk : Bool
  promptYes : Bool
  store : EdgeSubIn

/-- Observables of a publish-edge.js run.  `storeUploads` counts package
uploads to the Edge store; `reg`/`ran` count registered/executed cleanup
jobs (publish-edge.js's top-level `then` never calls `cleanDo`). -/
structure EMOut where
  pend : PEnd
  checks : Nat
  storeUploads : Nat
  reg : Nat
  ran : Nat
deriving DecidableEq, Repr

/-- publish-edge.js `main` plus its top-level continuation: locate and
download the asset, compare the manifest name with the store listing,
read and patch the manifest, confirm — and then hit the unconditional
`process.exit(1)` on line 202, so the `publishToEdgeStore` call and the
ad-hoc temp-dir removal below it are unreachable and no status check or
store upload is ever issued. -/
def edgeMain (inp : EdgeIn) : EMOut :=
  if inp.asset = false then ⟨.exited 1, 0, 0, 0, 0⟩
  else if inp.ghFetch = false then ⟨.crashed, 0, 0, 0, 0⟩
  else if nameMismatch inp.manifestName inp.storeName then ⟨.exited 1, 0, 0, 1, 0⟩
  else if inp.manifestOk = false then ⟨.exited 1, 0, 0, 1, 0⟩
  else if inp.patchOk = false then ⟨.crashed, 0, 0, 1, 0⟩
  else if inp.promptYes = false then ⟨.exited 1, 0, 0, 1, 0⟩
  else ⟨.exited 1, 0, 0, 1, 0⟩

/-! ## publish-chromium.js -/

/-- Outcome of the CWS OAuth token POST: rejected fetch (crashes on
`authResponse.statusText`), or a response with `ok` flag and, when the JSON
decoded, whether it carries `access_token`. -/
inductive CwsAuthFetch where
  | thrown
  | http (ok : Bool) (hasToken : Bool)
deriving DecidableEq, Repr

/-- Outcome of the CWS package upload PUT: rejected fetch (crashes on
`uploadResponse.statusText`), or a response with `ok` flag and, when
decoded, the body's optional `uploadState`. -/
inductive CwsUpFetch where
  | thrown
  | http (ok : Bool) (uploadState : Option String)
deriving DecidableEq, Repr

/-- Outcome of the CWS publish POST: rejected fetch, or a response with
`ok` flag and, when decoded, the body's `status` field (`none` models a
non-array value). -/
inductive CwsPubFetch where
  | thrown
  | http (ok : Bool) (status : Option (List String))
deriving DecidableEq, Repr

/-- External inputs of publish-chromium.js `publishToCWS`. -/
structure CwsSubIn where
  auth : CwsAuthFetch
  upload : CwsUpFetch
  pub : CwsPubFetch

/-- Observables of one `publishToCWS` run; `storeUploads` counts package
upload PUTs issued to the Chrome Web Store. -/
structure CWSOut where
  pend : Option PEnd
  storeUploads : Nat
deriving DecidableEq, Repr

/-- publish-chromium.js `publishToCWS`: obtain an access token (undecoded
body → exit 1, rejected fetch → crash, missing token → exit 1), upload the
package (`uploadState` must be `SUCCESS`), then publish (`status` must be
an array containing `OK`). -/
def publishToCWS (inp : CwsSubIn) : CWSOut :=
  match inp.auth with
  | .thrown => ⟨some .crashed, 0⟩
  | .http ok tok =>
    if ok = false then ⟨some (.exited 1), 0⟩
    else if tok = false then ⟨some (.exited 1), 0⟩
    else
      match inp.upload with
      | .thrown => ⟨some .crashed, 1⟩
      | .http uok st =>
        if uok = false then ⟨some (.exited 1), 1⟩
        else if st ≠ some "SUCCESS" then ⟨some (.exited 1), 1⟩
        else
          match inp.pub with
          | .thrown => ⟨some .crashed, 1⟩
          | .http pok pst =>
            if pok = false then ⟨some (.exited 1), 1⟩
            else
              match pst with
              | none => ⟨some (.exited 1), 1⟩
              | some l => if l.contains "OK" then ⟨none, 1⟩ else ⟨some (.exited 1), 1⟩

/-- External inputs of publish-chromium.js `main` (same shape as the Edge
flow's front half). -/
structure CwsIn where
  asset : Bool
  ghFetch : Bool
  storeName : String
  manifestName : Option String
  manifestOk : Bool
  patchOk : Bool
  promptYes : Bool
  store : CwsSubIn

/-- Observables of a publish-chromium.js run. -/
structure CMOut where
  pend : PEnd
  storeUploads : Nat
  reg : Nat
  ran : Nat
deriving DecidableEq, Repr

/-- publish-chromium.js `main` plus its top-level continuation.  On a name
mismatch the error message interpolates `manifest.name` while `manifest`
is still in its temporal dead zone (`const manifest` is declared only a few
lines below), so that branch throws a `ReferenceError` before the
`process.exit(1)` — the run crashes, upload never attempted.  `cleanDo`
runs in the `then` handler, i.e. only when `main` returns normally. -/
def chromiumMain (inp : CwsIn) : CMOut :=
  if inp.asset = false then ⟨.exited 1, 0, 0, 0⟩
  else if inp.ghFetch = false then ⟨.crashed, 0, 0, 0⟩
  else if nameMismatch inp.manifestName inp.storeName then ⟨.crashed, 0, 1, 0⟩
  else if inp.manifestOk = false then ⟨.exited 1, 0, 1, 0⟩
  else if inp.patchOk = false then ⟨.crashed, 0, 1, 0⟩
  else if inp.promptYes = false then ⟨.exited 1, 0, 1, 0⟩
  else
    let p := publishToCWS inp.store
    match p.pend with
    | some e => ⟨e, p.storeUploads, 1, 0⟩
    | none => ⟨.exited 0, p.storeUploads, 1, 1⟩

/-! ## Concrete inputs used to instantiate the theorems below -/

/-- An AMO status-check response that is still pending (`processed: false`). -/
def amoPendingFetch : AmoFetch := .http true 200 ⟨false, false, none⟩

/-- An Edge status-check response that is still pending (`InProgress`). -/
def edgePendingFetch : EdgeFetch := .http 200 (some "InProgress")

/-- `requestSignature` inputs whose submission succeeds but whose signing
status stays pending forever. -/
def amoSubPendingIn : AmoSubIn :=
  ⟨SimpleFetch.http true, fun _ => amoPendingFetch, SimpleFetch.http true⟩

/-- `publishToEdgeStore` inputs whose upload is accepted but whose
operation status stays `InProgress` forever. -/
def edgeSubPendingIn : EdgeSubIn :=
  ⟨EdgeHdrFetch.http 202 (some "op"), fun _ => edgePendingFetch,
    EdgeHdrFetch.http 202 (some "loc")⟩

/-- Edge status answers: `InProgress` for the first 3 checks, then
`Completed` with a locator. -/
def c2Resps : Nat → EdgeFetch :=
  fun i => if i < 3 then EdgeFetch.http 200 (some "InProgress")
           else EdgeFetch.http 200 (some "Completed")

/-- `publishToEdgeStore` inputs for the 3×InProgress-then-Completed
scenario, with accepted upload and publish calls. -/
def c2SubIn : EdgeSubIn :=
  ⟨EdgeHdrFetch.http 202 (some "op"), c2Resps, EdgeHdrFetch.http 202 (some "loc")⟩

/-- A fully healthy publish-edge.js `main` input for the scenario: asset
found, download ok, matching names, manifest ok, confirmation given. -/
def c2MainIn : EdgeIn :=
  ⟨true, true, "uBlock Origin", some "uBlock Origin", true, true, true, c2SubIn⟩

/-- A benign `updateFirefoxAutoUpdateFile` input (it is not consulted on
the paths where the theorems below use it). -/
def updDummyIn : UpdIn :=
  ⟨true, "gorhill", "uBlock", "1.2.0", some "id@example", some "1.2.0",
    some "pkg.signed.xpi", "", some "text", some "1.1.0", "M file"⟩

/-- An `updateFirefoxAutoUpdateFile` input on which everything succeeds:
all details present, clean staging area, readable well-formed descriptor,
new version 1.2.0 against recorded 1.1.0, git seeing the change. -/
def updGoodIn : UpdIn :=
  ⟨true, "gorhill", "uBlock", "1.2.0", some "id@example", some "1.2.0",
    some "pkg.signed.xpi", "", some "text", some "1.1.0", "M dist"⟩

/-- A publish-firefox.js run that reaches the signing poll loop and then
times out: unlisted channel, asset found, confirmed, downloaded, manifest
fine, submission accepted, status forever pending. -/
def ffTimeoutIn : FFIn :=
  ⟨"unlisted", true, true, true, some ⟨"1.2.0", true⟩, true,
    amoSubPendingIn, true, "", updDummyIn⟩

/-- A publish-firefox.js run on the listed channel that completes
normally (requestSignature returns right after the accepted submission). -/
def ffListedOkIn : FFIn :=
  ⟨"listed", true, true, true, some ⟨"1.2.0", true⟩, true,
    amoSubPendingIn, true, "", updDummyIn⟩

/-- `requestSignature` inputs whose first check is pending and whose
second is processed-but-invalid (an AMO validation rejection). -/
def amoRejIn : AmoSubIn :=
  ⟨SimpleFetch.http true,
    (fun i => if i = 0 then amoPendingFetch
              else AmoFetch.http true 200 ⟨true, false, none⟩),
    SimpleFetch.http true⟩

/-- `checkSignature` input whose lookup reports file status `disabled`. -/
def ufDisabledIn : UFCheckIn :=
  ⟨AmoV5Fetch.http true (some ⟨"disabled"⟩), SimpleFetch.http true⟩

/-- `publishToEdgeStore` inputs whose first check is `InProgress` and whose
second reports `Failed`. -/
def edgeRejIn : EdgeSubIn :=
  ⟨EdgeHdrFetch.http 202 (some "op"),
    (fun i => if i = 0 then edgePendingFetch
              else EdgeFetch.http 200 (some "Failed")),
    EdgeHdrFetch.http 202 none⟩

/-- AMO status answers: pending once, then an HTTP 500 on the check call. -/
def amoHttpFailResps : Nat → AmoFetch :=
  fun i => if i = 0 then amoPendingFetch
           else AmoFetch.http false 500 ⟨false, false, none⟩

/-- Edge status answers: `InProgress` once, then an HTTP 503 on the check
call. -/
def edgeHttpFailResps : Nat → EdgeFetch :=
  fun i => if i = 0 then edgePendingFetch else EdgeFetch.http 503 none

/-- A publish-chromium.js `main` input with manifest name `Foo` against
store listing name `Bar`. -/
def cwsMismatchIn : CwsIn :=
  ⟨true, true, "Bar", some "Foo", true, true, true,
    ⟨CwsAuthFetch.http true true, CwsUpFetch.http true (some "SUCCESS"),
      CwsPubFetch.http true (some ["OK"])⟩⟩

/-- A publish-edge.js `main` input with manifest name `Foo` against store
listing name `Bar`. -/
def edgeMismatchIn : EdgeIn :=
  ⟨true, true, "Bar", some "Foo", true, true, true, c2SubIn⟩

/-! ## Helper lemmas about the poll loop -/

theorem pollLoop_sleeps_le (step : α → Step ρ) (tmo : ρ) (resps : Nat → α) :
    ∀ c idx, 1 ≤ c → (pollLoop step tmo resps idx c).sleeps ≤ c := by
  intro c
  induction c using Nat.strong_induction_on with
  | _ c ih =>
    intro idx hc
    match c with
    | 1 => simp [pollLoop]
    | c + 2 =>
      simp only [pollLoop]
      cases h : step (resps idx) with
      | halt r => simp
      | again =>
        have := ih (c + 1) (by omega) (idx + 1) (by omega)
        simp only []
        omega

theorem pollLoop_checks_le (step : α → Step ρ) (tmo : ρ) (resps : Nat → α) :
    ∀ c idx, 1 ≤ c → (pollLoop step tmo resps idx c).checks + 1 ≤ c := by
  intro c
  induction c using Nat.strong_induction_on with
  | _ c ih =>
    intro idx hc
    match c with
    | 1 => simp [pollLoop]
    | c + 2 =>
      simp only [pollLoop]
      cases h : step (resps idx) with
      | halt r => simp
      | again =>
        have := ih (c + 1) (by omega) (idx + 1) (by omega)
        simp only []
        omega

theorem pollLoop_all_again (step : α → Step ρ) (tmo : ρ) (resps : Nat → α)
    (hall : ∀ i, step (resps i) = .again) :
    ∀ c idx, (pollLoop step tmo resps idx c).res = tmo := by
  intro c
  induction c using Nat.strong_induction_on with
  | _ c ih =>
    intro idx
    match c with
    | 0 => simp [pollLoop]
    | 1 => simp [pollLoop]
    | c + 2 =>
      simp only [pollLoop, hall idx]
      exact ih (c + 1) (by omega) (idx + 1)

theorem pollLoop_halt_at (step : α → Step ρ) (tmo : ρ) (resps : Nat → α) (r : ρ) :
    ∀ k idx c, k + 2 ≤ c → (∀ j, j < k → step (resps (idx + j)) = .again) →
    step (resps (idx + k)) = .halt r →
    pollLoop step tmo resps idx c = ⟨r, k + 1, k + 1⟩ := by
  intro k
  induction k with
  | zero =>
    intro idx c hc hpre hk
    match c with
    | c + 2 =>
      simp only [pollLoop]
      rw [show idx + 0 = idx from rfl] at hk
      rw [hk]
  | succ k ih =>
    intro idx c hc hpre hk
    match c with
    | c + 2 =>
      have h0 : step (resps idx) = .again := by
        have := hpre 0 (by omega)
        simpa using this
      simp only [pollLoop, h0]
      have hrec : pollLoop step tmo resps (idx + 1) (c + 1) = ⟨r, k + 1, k + 1⟩ := by
        apply ih (idx + 1) (c + 1) (by omega)
        · intro j hj
          have := hpre (j + 1) (by omega)
          rwa [show idx + (j + 1) = idx + 1 + j by omega] at this
        · rwa [show idx + 1 + k = idx + (k + 1) by omega]
      rw [hrec]

theorem amoStep_again_iff (f : AmoFetch) :
    amoCheckStep f = Step.again ↔ amoPendingB f = true := by
  cases f with
  | thrown => simp [amoCheckStep, amoPendingB]
  | http ok status body =>
    obtain ⟨pr, va, fs⟩ := body
    cases ok <;> cases pr <;> cases va <;>
      simp [amoCheckStep, amoPendingB] <;>
      rcases fs with _ | ⟨_ | ⟨f, fl⟩⟩ <;>
      try simp
    all_goals
      cases hs : f.signed <;> simp [hs] <;>
      cases ht : truthy f.download_url <;> simp [ht]

theorem edgeStep_again_iff (f : EdgeFetch) :
    edgeCheckStep f = Step.again ↔ edgePendingB f = true := by
  cases f with
  | thrown => simp [edgeCheckStep, edgePendingB]
  | http status body =>
    rcases body with _ | st
    · by_cases h200 : status = 200 <;> simp_all [edgeCheckStep, edgePendingB]
    · by_cases h200 : status = 200 <;>
        by_cases hf : st = "Failed" <;>
        by_cases hp : st = "InProgress" <;>
        simp_all [edgeCheckStep, edgePendingB]

theorem amoPending_step (f : AmoFetch) (h : amoPendingB f = true) :
    amoCheckStep f = Step.again := (amoStep_again_iff f).mpr h

theorem edgePending_step (f : EdgeFetch) (h : edgePendingB f = true) :
    edgeCheckStep f = Step.again := (edgeStep_again_iff f).mpr h

/-! ## Helper lemmas about the flow traces -/

theorem rs_trace_guarded (channel : String) (inp : AmoSubIn) :
    deleteGuarded false false (requestSignature channel inp).trace = true := by
  obtain ⟨sub, checks, dl⟩ := inp
  cases sub with
  | thrown => rfl
  | http ok =>
    cases ok with
    | false => rfl
    | true =>
      by_cases hch : channel = "unlisted"
      · subst hch
        rcases hl : (amoLoop checks 0 10) with ⟨lres, ls, lc⟩
        cases lres <;> cases dl <;>
          simp_all [requestSignature, deleteGuarded]
        all_goals rename_i dok; cases dok <;> simp [deleteGuarded]
      · simp [requestSignature, hch, deleteGuarded]

theorem rs_unlisted_none_trace (inp : AmoSubIn)
    (h : (requestSignature "unlisted" inp).pend = none) :
    (requestSignature "unlisted" inp).trace = [Ev.signedOk, Ev.download] := by
  obtain ⟨sub, checks, dl⟩ := inp
  cases sub with
  | thrown => simp [requestSignature] at h
  | http ok =>
    cases ok with
    | false => simp [requestSignature] at h
    | true =>
      rcases hl : (amoLoop checks 0 10) with ⟨lres, ls, lc⟩
      cases lres <;> cases dl <;>
        simp_all [requestSignature]
      rename_i dok
      cases dok <;> simp_all

theorem cs_trace_guarded (inp : UFCheckIn) :
    deleteGuarded false false (checkSignature inp).trace = true := by
  obtain ⟨ck, dl⟩ := inp
  cases ck with
  | thrown => rfl
  | http ok file =>
    cases ok with
    | false => rfl
    | true =>
      rcases file with _ | f
      · rfl
      · by_cases hd : f.status = "disabled"
        · cases dl <;> simp [checkSignature, hd, deleteGuarded]
        · by_cases hu : f.status = "unreviewed"
          · cases dl <;> simp [checkSignature, hd, hu, deleteGuarded]
          · cases dl with
            | thrown => simp [checkSignature, hd, hu, deleteGuarded]
            | http dok => cases dok <;> simp [checkSignature, hd, hu, deleteGuarded]

theorem cs_none_trace (inp : UFCheckIn)
    (h : (checkSignature inp).pend = none) :
    (checkSignature inp).trace = [Ev.signedOk, Ev.download] := by
  obtain ⟨ck, dl⟩ := inp
  cases ck with
  | thrown => simp [checkSignature] at h
  | http ok file =>
    cases ok with
    | false => simp [checkSignature] at h
    | true =>
      rcases file with _ | f
      · simp [checkSignature] at h
      · by_cases hd : f.status = "disabled"
        · simp [checkSignature, hd] at h
        · by_cases hu : f.status = "unreviewed"
          · simp [checkSignature, hd, hu] at h
          · cases dl with
            | thrown => simp [checkSignature, hd, hu] at h
            | http dok =>
              cases dok with
              | false => simp [checkSignature, hd, hu] at h
              | true => simp [checkSignature, hd, hu]

theorem rs_pend_ne_exited_zero (channel : String) (inp : AmoSubIn) :
    (requestSignature channel inp).pend ≠ some (PEnd.exited 0) := by
  obtain ⟨sub, checks, dl⟩ := inp
  cases sub with
  | thrown => simp [requestSignature]
  | http ok =>
    cases ok with
    | false => simp [requestSignature]
    | true =>
      by_cases hch : channel = "unlisted"
      · subst hch
        rcases hl : (amoLoop checks 0 10) with ⟨lres, ls, lc⟩
        cases lres <;> cases dl <;> simp_all [requestSignature]
        all_goals rename_i dok; cases dok <;> simp
      · simp [requestSignature, hch]

theorem cws_pend_ne_exited_zero (inp : CwsSubIn) :
    (publishToCWS inp).pend ≠ some (PEnd.exited 0) := by
  obtain ⟨auth, upload, pub⟩ := inp
  cases auth with
  | thrown => simp [publishToCWS]
  | http ok tok =>
    cases ok with
    | false => simp [publishToCWS]
    | true =>
      cases tok with
      | false => simp [publishToCWS]
      | true =>
        cases upload with
        | thrown => simp [publishToCWS]
        | http uok st =>
          cases uok with
          | false => simp [publishToCWS]
          | true =>
            by_cases hst : st = some "SUCCESS"
            case neg => simp [publishToCWS, hst]
            case pos =>
              cases pub with
              | thrown => simp [publishToCWS, hst]
              | http pok pst =>
                cases pok with
                | false => simp [publishToCWS, hst]
                | true =>
                  rcases pst with _ | l
                  · simp [publishToCWS, hst]
                  · simp [publishToCWS, hst]
                    split <;> simp

theorem ff_trace_guarded (inp : FFIn) :
    deleteGuarded false false (ffMain inp).trace = true := by
  obtain ⟨ch, as, py, gf, mf, uo, sub, up, upth, upd⟩ := inp
  by_cases hval : ch = "listed" ∨ ch = "unlisted"
  case neg => simp [ffMain, hval, deleteGuarded]
  case pos =>
  cases as with
  | false => simp [ffMain, hval, deleteGuarded]
  | true =>
  cases py with
  | false => simp [ffMain, hval, deleteGuarded]
  | true =>
  cases gf with
  | false => simp [ffMain, hval, deleteGuarded]
  | true =>
  rcases mf with _ | m
  · simp [ffMain, hval, deleteGuarded]
  · by_cases hg : ch = "unlisted" ∧ m.gecko = false
    · simp [ffMain, hval, hg, deleteGuarded]
    · by_cases huo : ch = "unlisted" ∧ uo = false
      · simp [ffMain, hval, hg, huo, deleteGuarded]
        split <;> rfl
      · rcases hp : (requestSignature ch sub).pend with _ | e
        · by_cases hu : ch = "unlisted"
          case neg =>
            have hli : ch = "listed" := hval.resolve_right hu
            subst hli
            simp [ffMain, hg, huo, hp, deleteGuarded]
            exact rs_trace_guarded "listed" sub
          case pos =>
            subst hu
            have ht := rs_unlisted_none_trace sub hp
            have hgecko : m.gecko = true := by
              cases hmg : m.gecko
              · exact absurd ⟨rfl, hmg⟩ hg
              · rfl
            have huo2 : uo = true := by
              cases huo2 : uo
              · exact absurd ⟨rfl, rfl⟩ (huo2 ▸ huo)
              · rfl
            subst huo2
            cases up with
            | false =>
              simp [ffMain, hp, hgecko, deleteGuarded]
              exact rs_trace_guarded "unlisted" sub
            | true =>
              by_cases hup : upth ≠ ""
              · cases hres : (updateFirefoxAutoUpdateFile upd).res with
                | threw => simp [ffMain, hp, hgecko, hup, hres, ht, deleteGuarded]
                | ret ok => simp [ffMain, hp, hgecko, hup, hres, ht, deleteGuarded]
              · simp [ffMain, hp, hgecko, hup, ht, deleteGuarded]
        · simp [ffMain, hval, hg, huo, hp, deleteGuarded]
          · exact rs_trace_guarded ch sub

theorem uf_trace_guarded (inp : UFIn) :
    deleteGuarded false false (ufMain inp).trace = true := by
  obtain ⟨ch, as, py, gf, mo, cs, up, upth, upd⟩ := inp
  by_cases hval : ch = "listed" ∨ ch = "unlisted"
  case neg => simp [ufMain, hval, deleteGuarded]
  case pos =>
  cases as with
  | false => simp [ufMain, hval, deleteGuarded]
  | true =>
  cases py with
  | false => simp [ufMain, hval, deleteGuarded]
  | true =>
  cases gf with
  | false => simp [ufMain, hval, deleteGuarded]
  | true =>
  cases mo with
  | false => simp [ufMain, hval, deleteGuarded]
  | true =>
  rcases hp : (checkSignature cs).pend with _ | e
  · have ht := cs_none_trace cs hp
    cases up with
    | false =>
      simp [ufMain, hval, hp, deleteGuarded]
      exact cs_trace_guarded cs
    | true =>
      by_cases hux : ch = "unlisted" ∧ upth ≠ ""
      · cases hres : (updateFirefoxAutoUpdateFile upd).res with
        | threw => simp [ufMain, hval, hp, hux, hres, ht, deleteGuarded]
        | ret ok => simp [ufMain, hval, hp, hux, hres, ht, deleteGuarded]
      · simp [ufMain, hval, hp, hux, ht, deleteGuarded]
  · simp [ufMain, hval, hp, deleteGuarded]
    exact cs_trace_guarded cs

/-! ## Helper lemma for version monotonicity -/

theorem intFromVersionList_mono (a b : List Nat)
    (ha4 : a.length ≤ 4) (hb4 : b.length ≤ 4)
    (ha : ∀ x ∈ a, x < 1000) (hb : ∀ x ∈ b, x < 1000)
    (h : vLt a b = true) :
    intFromVersionList a < intFromVersionList b := by
  rcases a with _ | ⟨a0, _ | ⟨a1, _ | ⟨a2, _ | ⟨a3, _ | ⟨a4, as⟩⟩⟩⟩⟩ <;>
    rcases b with _ | ⟨b0, _ | ⟨b1, _ | ⟨b2, _ | ⟨b3, _ | ⟨b4, bs⟩⟩⟩⟩⟩ <;>
    simp_all [vLt, intFromVersionList] <;> omega

/-! ## The claims -/

/-- C1: Both store-submitter poll loops (the AMO signing check and the Edge
operation check) terminate for every sequence of store responses, within
the attempt budget: the AMO loop (countdown 10, one 60-second sleep per
iteration) awaits at most 10 sleeps and issues at most 9 status checks, so
it ends within 600 ≤ 180·10 seconds of wall-clock wait; the Edge loop
(countdown 15, 60-second interval) awaits at most 15 sleeps and issues at
most 14 checks, ending within 60·15 seconds.  If every status answer is
still pending when the countdown reaches zero, the loop ends in `timedOut`,
and the surrounding flow terminates the process with exit code 1. -/
theorem c1_poll_loop_bounded_termination :
    ∀ (amoR : Nat → AmoFetch) (edgeR : Nat → EdgeFetch)
      (sIn : AmoSubIn) (eIn : EdgeSubIn) (loc : Option String),
    (amoLoop amoR 0 10).sleeps ≤ 10 ∧
    (amoLoop amoR 0 10).checks ≤ 9 ∧
    60 * (amoLoop amoR 0 10).sleeps ≤ 180 * 10 ∧
    (edgeLoop edgeR 0 15).sleeps ≤ 15 ∧
    (edgeLoop edgeR 0 15).checks ≤ 14 ∧
    60 * (edgeLoop edgeR 0 15).sleeps ≤ 60 * 15 ∧
    ((∀ i, amoPendingB (amoR i) = true) →
      (amoLoop amoR 0 10).res = AmoLoopRes.timedOut) ∧
    ((∀ i, edgePendingB (edgeR i) = true) →
      (edgeLoop edgeR 0 15).res = EdgeLoopRes.timedOut) ∧
    (sIn.submit = SimpleFetch.http true →
      (∀ i, amoPendingB (sIn.checks i) = true) →
      (requestSignature "unlisted" sIn).pend = some (PEnd.exited 1)) ∧
    (eIn.upload = EdgeHdrFetch.http 202 loc →
      (∀ i, edgePendingB (eIn.checks i) = true) →
      (publishToEdgeStore eIn).pend = some (PEnd.exited 1)) := by
  intro amoR edgeR sIn eIn loc
  simp only [amoLoop, edgeLoop]
  have has := pollLoop_sleeps_le amoCheckStep AmoLoopRes.timedOut amoR 10 0 (by omega)
  have hac := pollLoop_checks_le amoCheckStep AmoLoopRes.timedOut amoR 10 0 (by omega)
  have hes := pollLoop_sleeps_le edgeCheckStep EdgeLoopRes.timedOut edgeR 15 0 (by omega)
  have hec := pollLoop_checks_le edgeCheckStep EdgeLoopRes.timedOut edgeR 15 0 (by omega)
  refine ⟨has, by exact Nat.lt_succ_iff.mp (by omega), by omega, hes, by omega, by omega,
    ?_, ?_, ?_, ?_⟩
  · intro hall
    exact pollLoop_all_again amoCheckStep AmoLoopRes.timedOut amoR
      (fun i => amoPending_step _ (hall i)) 10 0
  · intro hall
    exact pollLoop_all_again edgeCheckStep EdgeLoopRes.timedOut edgeR
      (fun i => edgePending_step _ (hall i)) 15 0
  · intro hsub hall
    obtain ⟨sub, checks, dl⟩ := sIn
    simp only at hsub hall
    subst hsub
    have hres : (amoLoop checks 0 10).res = AmoLoopRes.timedOut :=
      pollLoop_all_again amoCheckStep AmoLoopRes.timedOut checks
        (fun i => amoPending_step _ (hall i)) 10 0
    rcases hl : amoLoop checks 0 10 with ⟨lres, ls, lc⟩
    rw [hl] at hres
    simp only at hres
    subst hres
    simp [requestSignature, hl]
  · intro hup hall
    obtain ⟨up, checks, pub⟩ := eIn
    simp only at hup hall
    subst hup
    have hres : (edgeLoop checks 0 15).res = EdgeLoopRes.timedOut :=
      pollLoop_all_again edgeCheckStep EdgeLoopRes.timedOut checks
        (fun i => edgePending_step _ (hall i)) 15 0
    rcases hl : edgeLoop checks 0 15 with ⟨lres, ls, lc⟩
    rw [hl] at hres
    simp only at hres
    subst hres
    simp [publishToEdgeStore, hl]

/-- C1 witness: with an accepted submission and forever-pending statuses,
both flows end the process with exit code 1. -/
theorem c1_witness :
    (requestSignature "unlisted" amoSubPendingIn).pend = some (PEnd.exited 1) ∧
    (publishToEdgeStore edgeSubPendingIn).pend = some (PEnd.exited 1) :=
  ⟨(c1_poll_loop_bounded_termination (fun _ => amoPendingFetch)
      (fun _ => edgePendingFetch) amoSubPendingIn edgeSubPendingIn
      (some "op")).2.2.2.2.2.2.2.2.1 rfl (fun _ => rfl),
   (c1_poll_loop_bounded_termination (fun _ => amoPendingFetch)
      (fun _ => edgePendingFetch) amoSubPendingIn edgeSubPendingIn
      (some "op")).2.2.2.2.2.2.2.2.2 rfl (fun _ => rfl)⟩

/-- C4: In both poll loops a status check is retried exactly when it is
pending (the step interpretation continues iff the response is in the
store's pending vocabulary), and a status-check call whose HTTP response is
not successful halts the loop on that very iteration: after k pending
answers, a non-ok AMO response (resp. a non-200 Edge response) at check
k ends the loop with a fatal server error having issued exactly k+1 checks
and awaited exactly k+1 sleeps — no further attempts are consumed. -/
theorem c4_failed_check_escalates_immediately :
    ∀ (f : AmoFetch) (g : EdgeFetch) (amoR : Nat → AmoFetch) (k status : Nat)
      (body : AmoBody) (edgeR : Nat → EdgeFetch) (k' st : Nat) (bod : Option String),
    (amoCheckStep f = Step.again ↔ amoPendingB f = true) ∧
    (edgeCheckStep g = Step.again ↔ edgePendingB g = true) ∧
    (k + 2 ≤ 10 → (∀ j, j < k → amoPendingB (amoR j) = true) →
      amoR k = AmoFetch.http false status body →
      amoLoop amoR 0 10 = ⟨AmoLoopRes.checkHttpError status, k + 1, k + 1⟩) ∧
    (k' + 2 ≤ 15 → (∀ j, j < k' → edgePendingB (edgeR j) = true) →
      edgeR k' = EdgeFetch.http st bod → st ≠ 200 →
      edgeLoop edgeR 0 15 = ⟨EdgeLoopRes.checkHttpError st, k' + 1, k' + 1⟩) := by
  intro f g amoR k status body edgeR k' st bod
  refine ⟨amoStep_again_iff f, edgeStep_again_iff g, ?_, ?_⟩
  · intro hk hpre hfail
    apply pollLoop_halt_at amoCheckStep AmoLoopRes.timedOut amoR
      (AmoLoopRes.checkHttpError status) k 0 10 hk
    · intro j hj
      rw [Nat.zero_add]
      exact amoPending_step _ (hpre j hj)
    · rw [Nat.zero_add, hfail]
      rfl
  · intro hk hpre hfail hne
    apply pollLoop_halt_at edgeCheckStep EdgeLoopRes.timedOut edgeR
      (EdgeLoopRes.checkHttpError st) k' 0 15 hk
    · intro j hj
      rw [Nat.zero_add]
      exact edgePending_step _ (hpre j hj)
    · rw [Nat.zero_add, hfail]
      simp [edgeCheckStep, hne]

/-- C4 witness: after one pending answer, an HTTP 500 AMO check (resp. an
HTTP 503 Edge check) halts its loop at the second check. -/
theorem c4_witness :
    amoLoop amoHttpFailResps 0 10 = ⟨AmoLoopRes.checkHttpError 500, 2, 2⟩ ∧
    edgeLoop edgeHttpFailResps 0 15 = ⟨EdgeLoopRes.checkHttpError 503, 2, 2⟩ :=
  ⟨(c4_failed_check_escalates_immediately amoPendingFetch edgePendingFetch
      amoHttpFailResps 1 500 ⟨false, false, none⟩ edgeHttpFailResps 1 503 none).2.2.1
      (by omega)
      (fun j hj => by
        have hj0 : j = 0 := by omega
        subst hj0
        rfl)
      rfl,
   (c4_failed_check_escalates_immediately amoPendingFetch edgePendingFetch
      amoHttpFailResps 1 500 ⟨false, false, none⟩ edgeHttpFailResps 1 503 none).2.2.2
      (by omega)
      (fun j hj => by
        have hj0 : j = 0 := by omega
        subst hj0
        rfl)
      rfl
      (by omega)⟩

/-- C3: Whenever a status check returns a rejected store status — AMO
processed with `valid !== true`, an AMO v5 file status `disabled`, or an
Edge status `Failed`/undefined — the flow terminates the process with exit
code 1 and issues no artifact download request at or after that point
(download counter 0). -/
theorem c3_rejected_status_terminates_without_download :
    ∀ (sIn : AmoSubIn) (k status : Nat) (fls : Option (List AmoFile))
      (uIn : UFCheckIn) (ff : V5File) (eIn : EdgeSubIn) (k' : Nat)
      (loc : Option String),
    (sIn.submit = SimpleFetch.http true → k + 2 ≤ 10 →
      (∀ j, j < k → amoPendingB (sIn.checks j) = true) →
      sIn.checks k = AmoFetch.http true status ⟨true, false, fls⟩ →
      (requestSignature "unlisted" sIn).pend = some (PEnd.exited 1) ∧
      (requestSignature "unlisted" sIn).downloads = 0) ∧
    (uIn.check = AmoV5Fetch.http true (some ff) → ff.status = "disabled" →
      (checkSignature uIn).pend = some (PEnd.exited 1) ∧
      (checkSignature uIn).downloads = 0) ∧
    (eIn.upload = EdgeHdrFetch.http 202 loc → k' + 2 ≤ 15 →
      (∀ j, j < k' → edgePendingB (eIn.checks j) = true) →
      (eIn.checks k' = EdgeFetch.http 200 none ∨
        eIn.checks k' = EdgeFetch.http 200 (some "Failed")) →
      (publishToEdgeStore eIn).pend = some (PEnd.exited 1) ∧
      (publishToEdgeStore eIn).downloads = 0) := by
  intro sIn k status fls uIn ff eIn k' loc
  refine ⟨?_, ?_, ?_⟩
  · intro hsub hk hpre hrej
    obtain ⟨sub, checks, dl⟩ := sIn
    simp only at hsub hpre hrej
    subst hsub
    have hl : amoLoop checks 0 10 = ⟨AmoLoopRes.validationFailed, k + 1, k + 1⟩ := by
      apply pollLoop_halt_at amoCheckStep AmoLoopRes.timedOut checks
        AmoLoopRes.validationFailed k 0 10 hk
      · intro j hj
        rw [Nat.zero_add]
        exact amoPending_step _ (hpre j hj)
      · rw [Nat.zero_add, hrej]
        rfl
    simp [requestSignature, hl]
  · intro hck hd
    obtain ⟨ck, dl⟩ := uIn
    simp only at hck
    subst hck
    simp [checkSignature, hd]
  · intro hup hk hpre hrej
    obtain ⟨up, checks, pub⟩ := eIn
    simp only at hup hpre hrej
    subst hup
    have hl : edgeLoop checks 0 15 = ⟨EdgeLoopRes.statusFailed, k' + 1, k' + 1⟩ := by
      apply pollLoop_halt_at edgeCheckStep EdgeLoopRes.timedOut checks
        EdgeLoopRes.statusFailed k' 0 15 hk
      · intro j hj
        rw [Nat.zero_add]
        exact edgePending_step _ (hpre j hj)
      · rw [Nat.zero_add]
        rcases hrej with h | h <;> rw [h] <;> rfl
    simp [publishToEdgeStore, hl]

/-- C3 witness: an AMO validation rejection at the second check, an AMO v5
`disabled` file status, and an Edge `Failed` status at the second check all
end the process with exit code 1 and zero artifact downloads. -/
theorem c3_witness :
    ((requestSignature "unlisted" amoRejIn).pend = some (PEnd.exited 1) ∧
      (requestSignature "unlisted" amoRejIn).downloads = 0) ∧
    ((checkSignature ufDisabledIn).pend = some (PEnd.exited 1) ∧
      (checkSignature ufDisabledIn).downloads = 0) ∧
    ((publishToEdgeStore edgeRejIn).pend = some (PEnd.exited 1) ∧
      (publishToEdgeStore edgeRejIn).downloads = 0) :=
  ⟨(c3_rejected_status_terminates_without_download amoRejIn 1 200 none
      ufDisabledIn ⟨"disabled"⟩ edgeRejIn 1 (some "op")).1
      rfl (by omega)
      (fun j hj => by
        have hj0 : j = 0 := by omega
        subst hj0
        rfl)
      rfl,
   (c3_rejected_status_terminates_without_download amoRejIn 1 200 none
      ufDisabledIn ⟨"disabled"⟩ edgeRejIn 1 (some "op")).2.1
      rfl rfl,
   (c3_rejected_status_terminates_without_download amoRejIn 1 200 none
      ufDisabledIn ⟨"disabled"⟩ edgeRejIn 1 (some "op")).2.2
      rfl (by omega)
      (fun j hj => by
        have hj0 : j = 0 := by omega
        subst hj0
        rfl)
      (Or.inr rfl)⟩

/-- C2 counterexample: on the scenario input (healthy asset, matching
names, confirmation given, store answering InProgress 3 times then
Completed), the publish-edge.js run exits with code 1 having issued 0
status checks and 0 store uploads — not 4 checks and exit 0 as claimed:
`main` hits its unconditional `process.exit(1)` before ever calling
`publishToEdgeStore`. -/
theorem c2_counterexample :
    (edgeMain c2MainIn).pend = PEnd.exited 1 ∧
    (edgeMain c2MainIn).checks = 0 ∧
    (edgeMain c2MainIn).storeUploads = 0 :=
  ⟨rfl, rfl, rfl⟩

/-- C2 amended: the store-submission routine `publishToEdgeStore` itself,
on an accepted upload with statuses InProgress for the first 3 checks and
then Completed, issues exactly 4 status checks (after 4 sleeps), downloads
no artifact (the Edge flow has no post-poll download step), and proceeds
past the poll loop to the publish call, returning normally; the enclosing
`main`, however, unconditionally exits with code 1 right after the
confirmation prompt, before `publishToEdgeStore` is ever invoked, so the
full flow issues 0 status checks and exits 1. -/
theorem c2_amended_edge_scenario :
    (publishToEdgeStore c2SubIn).checks = 4 ∧
    (publishToEdgeStore c2SubIn).sleeps = 4 ∧
    (publishToEdgeStore c2SubIn).downloads = 0 ∧
    (publishToEdgeStore c2SubIn).pend = none ∧
    (edgeMain c2MainIn).pend = PEnd.exited 1 ∧
    (edgeMain c2MainIn).checks = 0 :=
  ⟨rfl, rfl, rfl, rfl, rfl, rfl⟩

/-- C5: In every execution of the publish-firefox.js and upload-firefox.js
flows, the DELETE request for the unsigned release asset is issued only
strictly after the store has confirmed a signed/ready status and after the
signed artifact has been uploaded to the release: in every event trace of
both mains, each `deleteUnsigned` event is preceded by a `signedOk` and an
`uploadOk` event. -/
theorem c5_delete_strictly_after_ready :
    ∀ (ffIn : FFIn) (ufIn : UFIn),
    deleteGuarded false false (ffMain ffIn).trace = true ∧
    deleteGuarded false false (ufMain ufIn).trace = true :=
  fun ffIn ufIn => ⟨ff_trace_guarded ffIn, uf_trace_guarded ufIn⟩

/-- C6 counterexample: `1.2.3.4.5` is strictly below `1.2.3.4.6` in
dotted-numeric ordering, yet `intFromVersion` maps both to the same
integer (the projection reads only the first four components), so the
strictly-greater-to-strictly-greater claim fails. -/
theorem c6_counterexample :
    versionStrLt "1.2.3.4.5" "1.2.3.4.6" = true ∧
    intFromVersion "1.2.3.4.5" = intFromVersion "1.2.3.4.6" :=
  ⟨rfl, rfl⟩

/-- C6 amended: for version strings with at most 4 numeric components,
each below 1000 (the base of the mixed-radix projection), strict
dotted-numeric ordering does map to a strictly greater integer under
`intFromVersion`. -/
theorem c6_amended_projection_monotone :
    ∀ a b : String,
    (digitRuns a).length ≤ 4 → (digitRuns b).length ≤ 4 →
    (∀ x ∈ digitRuns a, x < 1000) → (∀ x ∈ digitRuns b, x < 1000) →
    versionStrLt a b = true →
    intFromVersion a < intFromVersion b :=
  fun a b h1 h2 h3 h4 h5 =>
    intFromVersionList_mono (digitRuns a) (digitRuns b) h1 h2 h3 h4 h5

/-- C6 witness: the spec's own example, `1.2.0` vs `1.10.0`. -/
theorem c6_witness : intFromVersion "1.2.0" < intFromVersion "1.10.0" :=
  c6_amended_projection_monotone "1.2.0" "1.10.0" (by decide) (by decide)
    (by decide) (by decide) (by decide)

/-- C7: `updateFirefoxAutoUpdateFile` writes the auto-update descriptor iff
all its preconditions hold (GitHub vars valid, extension id / manifest /
package name present, clean staging area, readable and well-formed
descriptor) and the new version's projection is ≥ the recorded one; on
every other path — every early return included — no write is issued, so
the file stays byte-identical.  When it does write, the `version` and
`update_link` fields go out together in the one `fs.writeFile`, and the
git commit runs only after such a write (and does run whenever git reports
the written file as changed). -/
theorem c7_update_descriptor_iff :
    ∀ inp : UpdIn,
    ((updateFirefoxAutoUpdateFile inp).wrote.isSome = true ↔
      (inp.ghVarsOk = true ∧ inp.amoId.isSome = true ∧
        inp.mfVersion.isSome = true ∧ inp.pkgName.isSome = true ∧
        inp.staged = "" ∧ inp.fileText.isSome = true ∧
        inp.recorded.isSome = true ∧
        intFromVersion (inp.recorded.getD "") ≤
          intFromVersion (inp.mfVersion.getD ""))) ∧
    (∀ v l, (updateFirefoxAutoUpdateFile inp).wrote = some (v, l) →
      v = inp.mfVersion.getD "" ∧
      l = updateLink inp.owner inp.repo inp.tag (inp.pkgName.getD "")) ∧
    ((updateFirefoxAutoUpdateFile inp).committed = true →
      (updateFirefoxAutoUpdateFile inp).wrote.isSome = true) ∧
    ((updateFirefoxAutoUpdateFile inp).wrote.isSome = true →
      inp.gitStatus ≠ "" →
      (updateFirefoxAutoUpdateFile inp).committed = true) := by
  intro inp
  obtain ⟨gv, ow, rp, tg, ai, mv, pn, st, ft, rc, gs⟩ := inp
  cases gv <;> rcases ai with _ | ai <;> rcases mv with _ | mv <;>
    rcases pn with _ | pn <;> rcases ft with _ | ft <;> rcases rc with _ | rc <;>
    by_cases hst : st = "" <;>
    simp_all [updateFirefoxAutoUpdateFile] <;>
    by_cases hlt : intFromVersion mv < intFromVersion rc <;>
    by_cases hgs : gs = "" <;>
    simp_all [updateFirefoxAutoUpdateFile]
  all_goals
    rw [if_neg (by omega)]
    simp_all

/-- C7 witness: with all preconditions satisfied and new version `1.2.0`
against recorded `1.1.0`, the descriptor is written and committed. -/
theorem c7_witness :
    (updateFirefoxAutoUpdateFile updGoodIn).wrote.isSome = true ∧
    (updateFirefoxAutoUpdateFile updGoodIn).committed = true :=
  ⟨(c7_update_descriptor_iff updGoodIn).1.mpr
      ⟨rfl, rfl, rfl, rfl, rfl, rfl, rfl, by decide⟩,
   (c7_update_descriptor_iff updGoodIn).2.2.2
      ((c7_update_descriptor_iff updGoodIn).1.mpr
        ⟨rfl, rfl, rfl, rfl, rfl, rfl, rfl, by decide⟩)
      (by decide)⟩

/-- C8: In the Chromium and Edge publish flows, whenever the extension name
read from the package manifest is non-empty and differs from the store
listing's name, the process terminates with exit code 1 (publish-chromium
crashes in that branch — its error message touches `manifest` inside its
temporal dead zone, and Node exits 1 on the unhandled rejection;
publish-edge exits 1 cleanly) before any package upload to the store is
attempted. -/
theorem c8_name_mismatch_aborts_before_upload :
    ∀ (cIn : CwsIn) (eIn : EdgeIn) (n m : String),
    (cIn.manifestName = some n → n ≠ "" → n ≠ cIn.storeName →
      exitCodeOf (chromiumMain cIn).pend = 1 ∧
      (chromiumMain cIn).storeUploads = 0) ∧
    (eIn.manifestName = some m → m ≠ "" → m ≠ eIn.storeName →
      exitCodeOf (edgeMain eIn).pend = 1 ∧
      (edgeMain eIn).storeUploads = 0) := by
  intro cIn eIn n m
  constructor
  · intro hmn hne hns
    obtain ⟨as, gf, sn, mn, mo, po, py, store⟩ := cIn
    simp only at hmn hne hns
    subst hmn
    have hmm : nameMismatch (some n) sn = true := by
      simp [nameMismatch, hne, hns]
    cases as with
    | false => simp [chromiumMain, exitCodeOf]
    | true =>
      cases gf with
      | false => simp [chromiumMain, exitCodeOf]
      | true => simp [chromiumMain, hmm, exitCodeOf]
  · intro hmn hne hns
    obtain ⟨as, gf, sn, mn, mo, po, py, store⟩ := eIn
    simp only at hmn hne hns
    subst hmn
    have hmm : nameMismatch (some m) sn = true := by
      simp [nameMismatch, hne, hns]
    cases as with
    | false => simp [edgeMain, exitCodeOf]
    | true =>
      cases gf with
      | false => simp [edgeMain, exitCodeOf]
      | true => simp [edgeMain, hmm, exitCodeOf]

/-- C8 witness: manifest name `Foo` against store listing `Bar` aborts both
flows with exit code 1 and zero store uploads. -/
theorem c8_witness :
    (exitCodeOf (chromiumMain cwsMismatchIn).pend = 1 ∧
      (chromiumMain cwsMismatchIn).storeUploads = 0) ∧
    (exitCodeOf (edgeMain edgeMismatchIn).pend = 1 ∧
      (edgeMain edgeMismatchIn).storeUploads = 0) :=
  ⟨(c8_name_mismatch_aborts_before_upload cwsMismatchIn edgeMismatchIn
      "Foo" "Foo").1 rfl (by decide) (by decide),
   (c8_name_mismatch_aborts_before_upload cwsMismatchIn edgeMismatchIn
      "Foo" "Foo").2 rfl (by decide) (by decide)⟩

/-- C9 counterexample: on a publish-firefox.js run that reaches the signing
poll loop and times out, the process exits 1 with two cleanup jobs
registered (both scratch temp directories) and zero executed — the
`process.exit(1)` inside the loop bypasses the `cleanDo` call that lives
only in the top-level `then` handler, so the claimed
"each registered cleanup action is executed exactly once on every exit
path" fails. -/
theorem c9_counterexample :
    (ffMain ffTimeoutIn).pend = PEnd.exited 1 ∧
    (ffMain ffTimeoutIn).reg = 2 ∧
    (ffMain ffTimeoutIn).ran = 0 :=
  ⟨rfl, rfl, rfl⟩

/-- C9 amended: the cleanup runner `cleanDo`, when invoked, attempts every
registered job exactly once (even jobs that throw); but it is invoked only
from the top-level `then` handlers of publish-firefox.js and
publish-chromium.js, so registered cleanups all run exactly once on runs of
those two scripts that complete normally (exit 0), while every path that
terminates through `process.exit` or an unhandled error bypasses them, and
publish-edge.js and upload-firefox.js never invoke the runner at all. -/
theorem c9_amended_cleanup_only_on_normal_return :
    ∀ (jobs : List Bool) (ffIn : FFIn) (cIn : CwsIn) (ufIn : UFIn) (eIn : EdgeIn),
    cleanDo jobs = jobs.length ∧
    ((ffMain ffIn).pend = PEnd.exited 0 → (ffMain ffIn).ran = (ffMain ffIn).reg) ∧
    ((chromiumMain cIn).pend = PEnd.exited 0 →
      (chromiumMain cIn).ran = (chromiumMain cIn).reg) ∧
    (ufMain ufIn).ran = 0 ∧
    (edgeMain eIn).ran = 0 := by
  intro jobs ffIn cIn ufIn eIn
  refine ⟨?_, ?_, ?_, ?_, ?_⟩
  · induction jobs with
    | nil => rfl
    | cons j rest ih => simp [cleanDo, ih]
  · intro h
    obtain ⟨ch, as, py, gf, mf, uo, sub, up, upth, upd⟩ := ffIn
    by_cases hval : ch = "listed" ∨ ch = "unlisted"
    case neg => simp_all [ffMain]
    case pos =>
    cases as with
    | false => simp_all [ffMain]
    | true =>
    cases py with
    | false => simp_all [ffMain]
    | true =>
    cases gf with
    | false => simp_all [ffMain]
    | true =>
    rcases mf with _ | m
    · simp_all [ffMain]
    · by_cases hg : ch = "unlisted" ∧ m.gecko = false
      · simp_all [ffMain]
      · by_cases huo : ch = "unlisted" ∧ uo = false
        · simp_all [ffMain]
        · rcases hp : (requestSignature ch sub).pend with _ | e
          · by_cases hu : ch = "unlisted"
            · subst hu
              cases up with
              | false => simp_all [ffMain]
              | true =>
                by_cases hup : upth ≠ ""
                · cases hres : (updateFirefoxAutoUpdateFile upd).res with
                  | threw => simp_all [ffMain]
                  | ret ok => simp_all [ffMain]
                · simp_all [ffMain]
            · simp_all [ffMain]
          · exfalso
            have hne := rs_pend_ne_exited_zero ch sub
            rw [hp] at hne
            simp_all [ffMain]
  · intro h
    obtain ⟨as, gf, sn, mn, mo, po, py, store⟩ := cIn
    cases as with
    | false => simp_all [chromiumMain]
    | true =>
    cases gf with
    | false => simp_all [chromiumMain]
    | true =>
    by_cases hmm : nameMismatch mn sn = true
    · simp_all [chromiumMain]
    · cases mo with
      | false => simp_all [chromiumMain]
      | true =>
      cases po with
      | false => simp_all [chromiumMain]
      | true =>
      cases py with
      | false => simp_all [chromiumMain]
      | true =>
      rcases hp : (publishToCWS store).pend with _ | e
      · simp_all [chromiumMain]
      · exfalso
        have hne := cws_pend_ne_exited_zero store
        rw [hp] at hne
        simp_all [chromiumMain]
  · obtain ⟨ch, as, py, gf, mo, cs, up, upth, upd⟩ := ufIn
    simp only [ufMain]
    repeat' split
    all_goals rfl
  · obtain ⟨as, gf, sn, mn, mo, po, py, store⟩ := eIn
    simp only [edgeMain]
    repeat' split
    all_goals rfl

/-- C9 witness: `cleanDo` attempts both of two registered jobs (one of them
throwing), and a listed-channel publish-firefox.js run that completes
normally executes both of its registered cleanups. -/
theorem c9_witness :
    cleanDo [true, false] = 2 ∧
    (ffMain ffListedOkIn).ran = (ffMain ffListedOkIn).reg :=
  ⟨(c9_amended_cleanup_only_on_normal_return [true, false] ffListedOkIn
      cwsMismatchIn (⟨"listed", true, true, true, true,
        ⟨AmoV5Fetch.http true (some ⟨"public"⟩), SimpleFetch.http true⟩,
        true, "", updDummyIn⟩) c2MainIn).1,
   (c9_amended_cleanup_only_on_normal_return [true, false] ffListedOkIn
      cwsMismatchIn (⟨"listed", true, true, true, true,
        ⟨AmoV5Fetch.http true (some ⟨"public"⟩), SimpleFetch.http true⟩,
        true, "", updDummyIn⟩) c2MainIn).2.1 rfl⟩

/-- C10 counterexample: `fetchEx` CAN reject — only the initial `fetch` is
caught, so for an ok response whose body decode throws (here: a malformed
JSON body under the recognized tag `json`), the uncaught
`await response.json()` rejects `fetchEx`'s promise instead of resolving
to any object. -/
theorem c10_counterexample :
    fetchEx ["https://example.org", "json"] (FetchOut.resp true false) =
      FetchExResult.rejected :=
  rfl

/-- C10 amended: `fetchEx` catches only the initial `fetch`: a rejected
fetch resolves to the empty object (no response, no data); a non-ok
response resolves to the response alone with no data; an ok response with
an unrecognized trailing tag resolves with the response and no data value;
and with a recognized tag (`bytes`/`json`/`text`) it resolves with data
exactly when the body decode succeeds — when the decode throws, `fetchEx`
itself rejects, which is the one case in which it does not resolve. -/
theorem c10_amended_fetchEx_characterization :
    ∀ (args : List String) (f : FetchOut),
    (fetchEx args FetchOut.thrown = FetchExResult.resolved ⟨none, false⟩) ∧
    (∀ b, f = FetchOut.resp false b →
      fetchEx args f = FetchExResult.resolved ⟨some false, false⟩) ∧
    (∀ b, fetchEx args (FetchOut.resp true b) = FetchExResult.rejected ↔
      (recognizedTag args.getLast? = true ∧ b = false)) ∧
    (∀ r, fetchEx args f = FetchExResult.resolved r →
      (r.data = true ↔
        (f = FetchOut.resp true true ∧ recognizedTag args.getLast? = true))) := by
  intro args f
  refine ⟨rfl, ?_, ?_, ?_⟩
  · intro b h
    subst h
    simp [fetchEx]
  · intro b
    cases b <;> cases hrt : recognizedTag args.getLast? <;> simp [fetchEx, hrt]
  · intro r h
    cases f with
    | thrown =>
      simp only [fetchEx] at h
      cases h
      simp
    | resp ok bodyOk =>
      cases ok <;> cases bodyOk <;> cases hrt : recognizedTag args.getLast? <;>
        simp [fetchEx, hrt] at h <;> cases h <;> simp [hrt]

/-- C10 witness: a non-ok response resolves to the response alone, and an
ok response with tag `json` and a well-formed body resolves with data. -/
theorem c10_witness :
    fetchEx ["https://example.org", "json"] (FetchOut.resp false true) =
      FetchExResult.resolved ⟨some false, false⟩ ∧
    ((⟨some true, true⟩ : FetchExOut).data = true) :=
  ⟨(c10_amended_fetchEx_characterization ["https://example.org", "json"]
      (FetchOut.resp false true)).2.1 true rfl,
   ((c10_amended_fetchEx_characterization ["https://example.org", "json"]
      (FetchOut.resp true true)).2.2.2 ⟨some true, true⟩ rfl).mpr
      ⟨rfl, rfl⟩⟩

end PubExt
